import Mathlib

/-!
# Shallow embedding of the boxq resilience layer

This file embeds, in Lean, the state machines and pure control flow of the
boxq library (`src/core/CircuitBreaker.js`, `src/core/RetryManager.js`,
`src/core/SQSClient.js`, `src/consumers/ProcessingEngine.js`,
`src/consumers/MessageConsumer.js`, `src/utils/DeduplicationManager.js`)
and proves or refutes the specified behavioural properties.

Conventions of the embedding:
* JS wall-clock timestamps (`Date.now()`) become explicit `Int` parameters
  threaded through the functions that read the clock.
* Mutation of `this` becomes explicit state passing: a method that mutates
  the object returns the updated record (paired with its return value).
* JS numbers in the configuration fields are natural numbers (`Nat`) for
  counters/delays and `Int` for timestamps; none of the modelled code paths
  can make them negative or fractional.
* Async functions that cannot reject are embedded as total functions; a
  `try`/`catch` whose body is such a function embeds as the body alone
  (the catch handler is unreachable).
* Timing bookkeeping fields that only record elapsed wall-clock durations
  (`processingTime`, error-entry `timestamp`) are elided.
-/

namespace BoxQ

/-! ## CircuitBreaker (`src/core/CircuitBreaker.js`)

State machine fields: `state`, `failureCount`, `lastFailureTime`,
`successCount`; configuration: `failureThreshold` (default 5) and
`timeout` (default 60000 ms). `lastFailureTime` is `null` until the
first failure; JS arithmetic coerces `null` to `0`, which the model
mirrors with `Option.getD 0`. -/

inductive CBState where
  | closed
  | opened
  | halfOpen
  deriving DecidableEq, Repr

structure CircuitBreaker where
  failureThreshold : Nat
  timeout : Int
  state : CBState
  failureCount : Nat
  lastFailureTime : Option Int
  successCount : Nat
  deriving DecidableEq, Repr

namespace CircuitBreaker

/-- Constructor: fresh breaker in CLOSED state with zeroed counters. -/
def init (failureThreshold : Nat) (timeout : Int) : CircuitBreaker :=
  { failureThreshold := failureThreshold
    timeout := timeout
    state := .closed
    failureCount := 0
    lastFailureTime := none
    successCount := 0 }

/-- Method `canExecute()` at wall-clock time `now`: returns whether execution is
allowed, together with the (possibly mutated) breaker — an OPEN breaker
whose timeout has elapsed flips to HALF_OPEN with `successCount = 0`. -/
def canExecute (now : Int) (cb : CircuitBreaker) : Bool × CircuitBreaker :=
  match cb.state with
  | .closed => (true, cb)
  | .opened =>
      if now - (cb.lastFailureTime.getD 0) > cb.timeout then
        (true, { cb with state := .halfOpen, successCount := 0 })
      else
        (false, cb)
  | .halfOpen => (true, cb)

/-- Method `recordSuccess()`: increments `successCount`; in HALF_OPEN, reaching
`failureThreshold` successes closes the circuit and zeroes both counters. -/
def recordSuccess (cb : CircuitBreaker) : CircuitBreaker :=
  let cb := { cb with successCount := cb.successCount + 1 }
  match cb.state with
  | .halfOpen =>
      if cb.successCount ≥ cb.failureThreshold then
        { cb with state := .closed, failureCount := 0, successCount := 0 }
      else cb
  | _ => cb

/-- Method `recordFailure()` at wall-clock time `now`: increments `failureCount`,
stamps `lastFailureTime`; in CLOSED or HALF_OPEN, reaching
`failureThreshold` failures opens the circuit. -/
def recordFailure (now : Int) (cb : CircuitBreaker) : CircuitBreaker :=
  let cb := { cb with failureCount := cb.failureCount + 1,
                      lastFailureTime := some now }
  match cb.state with
  | .closed | .halfOpen =>
      if cb.failureCount ≥ cb.failureThreshold then
        { cb with state := .opened }
      else cb
  | .opened => cb

end CircuitBreaker

/-- A record call on the breaker: `recordFailure` at some time, or
`recordSuccess` (which does not read the clock). -/
inductive CBEvent where
  | fail (t : Int)
  | succeed
  deriving DecidableEq, Repr

/-- Apply one record call to the breaker. -/
def applyEvent (e : CBEvent) (cb : CircuitBreaker) : CircuitBreaker :=
  match e with
  | .fail t => cb.recordFailure t
  | .succeed => cb.recordSuccess

/-- Apply a sequence of record calls, left to right. -/
def applyEvents (evs : List CBEvent) (cb : CircuitBreaker) : CircuitBreaker :=
  match evs with
  | [] => cb
  | e :: rest => applyEvents rest (applyEvent e cb)

/-- Number of `recordFailure` calls in a sequence. -/
def countFails (evs : List CBEvent) : Nat :=
  match evs with
  | [] => 0
  | .fail _ :: rest => countFails rest + 1
  | .succeed :: rest => countFails rest

/-- Time of the last `recordFailure` call in a sequence, if any. -/
def lastFailTime (evs : List CBEvent) : Option Int :=
  match evs with
  | [] => none
  | .fail t :: rest => some ((lastFailTime rest).getD t)
  | .succeed :: rest => lastFailTime rest

/-- Iterated `recordSuccess` (n consecutive calls, no intervening failure). -/
def iterRecordSuccess : Nat → CircuitBreaker → CircuitBreaker
  | 0, cb => cb
  | n + 1, cb => iterRecordSuccess n cb.recordSuccess

/-- Method `recordFailure` computed as a single conditional record update, valid
whenever the breaker is not HALF_OPEN. -/
lemma recordFailure_eq (b : CircuitBreaker) (t : Int)
    (hnh : b.state ≠ CBState.halfOpen) :
    b.recordFailure t =
      (if b.failureCount + 1 ≥ b.failureThreshold
       then { b with failureCount := b.failureCount + 1,
                     lastFailureTime := some t, state := .opened }
       else { b with failureCount := b.failureCount + 1,
                     lastFailureTime := some t }) := by
  unfold CircuitBreaker.recordFailure
  cases b with
  | mk thr tmo st fc lft sc =>
      cases st with
      | closed => rfl
      | opened => split_ifs <;> rfl
      | halfOpen => exact absurd rfl hnh

/-- Method `recordSuccess` only bumps `successCount` when the breaker is not
HALF_OPEN. -/
lemma recordSuccess_eq (b : CircuitBreaker)
    (hnh : b.state ≠ CBState.halfOpen) :
    b.recordSuccess = { b with successCount := b.successCount + 1 } := by
  unfold CircuitBreaker.recordSuccess
  cases b with
  | mk thr tmo st fc lft sc =>
      cases st with
      | closed => rfl
      | opened => rfl
      | halfOpen => exact absurd rfl hnh

/-- Invariant of the breaker under sequences of record calls starting from a
non-HALF_OPEN state whose openness matches the failure count. -/
lemma applyEvents_inv (evs : List CBEvent) (b : CircuitBreaker)
    (hiff : b.state = CBState.opened ↔ b.failureThreshold ≤ b.failureCount)
    (hnh : b.state ≠ CBState.halfOpen) :
    (applyEvents evs b).failureThreshold = b.failureThreshold ∧
    (applyEvents evs b).timeout = b.timeout ∧
    (applyEvents evs b).failureCount = b.failureCount + countFails evs ∧
    ((applyEvents evs b).lastFailureTime =
      match lastFailTime evs with
      | some t => some t
      | none => b.lastFailureTime) ∧
    ((applyEvents evs b).state = CBState.opened ↔
      b.failureThreshold ≤ b.failureCount + countFails evs) ∧
    (applyEvents evs b).state ≠ CBState.halfOpen := by
  induction evs generalizing b with
  | nil =>
      refine ⟨rfl, rfl, by simp [applyEvents, countFails],
        by simp [applyEvents, lastFailTime], ?_, hnh⟩
      simpa [applyEvents, countFails] using hiff
  | cons e rest ih =>
      cases e with
      | fail t =>
          have hcb := recordFailure_eq b t hnh
          by_cases h : b.failureCount + 1 ≥ b.failureThreshold
          · rw [if_pos h] at hcb
            have hrec := ih { b with failureCount := b.failureCount + 1,
                                     lastFailureTime := some t,
                                     state := .opened }
              (by simp; omega) (by simp)
            obtain ⟨g1, g2, g3, g4, g5, g6⟩ := hrec
            have happ : applyEvents (CBEvent.fail t :: rest) b =
                applyEvents rest { b with failureCount := b.failureCount + 1,
                                          lastFailureTime := some t,
                                          state := .opened } := by
              simp only [applyEvents, applyEvent]
              rw [hcb]
            rw [happ]
            refine ⟨by simpa using g1, by simpa using g2, ?_, ?_, ?_, g6⟩
            · rw [g3]; simp [countFails]; omega
            · rw [g4]; simp only [lastFailTime]
              cases hlt : lastFailTime rest <;> simp
            · rw [g5]; simp [countFails]; omega
          · rw [if_neg h] at hcb
            have hrec := ih { b with failureCount := b.failureCount + 1,
                                     lastFailureTime := some t }
              (by
                show b.state = CBState.opened ↔
                  b.failureThreshold ≤ b.failureCount + 1
                constructor
                · intro hx
                  have := hiff.mp hx
                  omega
                · intro hx
                  exact absurd hx h)
              (by simpa using hnh)
            obtain ⟨g1, g2, g3, g4, g5, g6⟩ := hrec
            have happ : applyEvents (CBEvent.fail t :: rest) b =
                applyEvents rest { b with failureCount := b.failureCount + 1,
                                          lastFailureTime := some t } := by
              simp only [applyEvents, applyEvent]
              rw [hcb]
            rw [happ]
            refine ⟨by simpa using g1, by simpa using g2, ?_, ?_, ?_, g6⟩
            · rw [g3]; simp [countFails]; omega
            · rw [g4]; simp only [lastFailTime]
              cases hlt : lastFailTime rest <;> simp
            · rw [g5]; simp [countFails]; omega
      | succeed =>
          have hcb := recordSuccess_eq b hnh
          have hrec := ih { b with successCount := b.successCount + 1 }
            (by simpa using hiff) (by simpa using hnh)
          obtain ⟨g1, g2, g3, g4, g5, g6⟩ := hrec
          have happ : applyEvents (CBEvent.succeed :: rest) b =
              applyEvents rest { b with successCount := b.successCount + 1 } := by
            simp only [applyEvents, applyEvent]
            rw [hcb]
          rw [happ]
          refine ⟨by simpa using g1, by simpa using g2, ?_, ?_, ?_, g6⟩
          · rw [g3]; simp [countFails]
          · rw [g4]; simp only [lastFailTime]
          · rw [g5]; simp [countFails]

/-- From HALF_OPEN with `successCount + n = failureThreshold` and `n > 0`,
`n` consecutive successes close the circuit and zero both counters. -/
lemma iterRecordSuccess_closes (n : Nat) :
    ∀ cb : CircuitBreaker, cb.state = CBState.halfOpen →
    cb.successCount + n = cb.failureThreshold → 0 < n →
    (iterRecordSuccess n cb).state = CBState.closed ∧
    (iterRecordSuccess n cb).failureCount = 0 ∧
    (iterRecordSuccess n cb).successCount = 0 := by
  induction n with
  | zero => intro cb _ _ hn; omega
  | succ m ih =>
      intro cb hs hsum _
      rw [iterRecordSuccess]
      by_cases hm : m = 0
      · subst hm
        have hthr : cb.successCount + 1 ≥ cb.failureThreshold := by omega
        have hrs : cb.recordSuccess =
            { cb with state := .closed, failureCount := 0,
                      successCount := 0 } := by
          unfold CircuitBreaker.recordSuccess
          cases cb with
          | mk thr tmo st fc lft sc =>
              cases st with
              | halfOpen => simp_all
              | closed => simp at hs
              | opened => simp at hs
        rw [hrs]
        exact ⟨rfl, rfl, rfl⟩
      · have hlt : ¬ (cb.successCount + 1 ≥ cb.failureThreshold) := by omega
        have hrs : cb.recordSuccess =
            { cb with successCount := cb.successCount + 1 } := by
          unfold CircuitBreaker.recordSuccess
          cases cb with
          | mk thr tmo st fc lft sc =>
              cases st with
              | halfOpen => simp_all
              | closed => simp at hs
              | opened => simp at hs
        rw [hrs]
        exact ih _ hs (by simp; omega) (by omega)

/-- A sequence with no failure event has failure count zero. -/
lemma countFails_eq_zero_of_lastFailTime_none (evs : List CBEvent)
    (h : lastFailTime evs = none) : countFails evs = 0 := by
  induction evs with
  | nil => rfl
  | cons e rest ih =>
      cases e with
      | fail t => simp [lastFailTime] at h
      | succeed =>
          rw [lastFailTime] at h
          rw [countFails]
          exact ih h

/-- Claim C3: Starting from a fresh breaker, for every interleaving of
`recordFailure`/`recordSuccess` calls: `failureCount` equals the cumulative
number of `recordFailure` calls (successes while CLOSED do not reset it),
the state is OPEN exactly when that count has reached `failureThreshold`,
and while OPEN `canExecute` returns `false` exactly as long as no more than
`timeout` milliseconds have elapsed since the last failure. -/
theorem circuitBreaker_open_at_threshold
    (k : Nat) (tmo : Int) (evs : List CBEvent) (hk : 0 < k) :
    (applyEvents evs (CircuitBreaker.init k tmo)).failureCount =
      countFails evs ∧
    ((applyEvents evs (CircuitBreaker.init k tmo)).state = CBState.opened ↔
      k ≤ countFails evs) ∧
    (applyEvents evs (CircuitBreaker.init k tmo)).lastFailureTime =
      lastFailTime evs ∧
    (∀ now : Int,
      (applyEvents evs (CircuitBreaker.init k tmo)).state = CBState.opened →
      (((applyEvents evs (CircuitBreaker.init k tmo)).canExecute now).1 =
          false ↔
        now - (lastFailTime evs).getD 0 ≤ tmo)) := by
  have h := applyEvents_inv evs (CircuitBreaker.init k tmo)
    (by simp [CircuitBreaker.init]; omega)
    (by simp [CircuitBreaker.init])
  obtain ⟨h1, h2, h3, h4, h5, h6⟩ := h
  have hfc : (applyEvents evs (CircuitBreaker.init k tmo)).failureCount =
      countFails evs := by
    rw [h3]; simp [CircuitBreaker.init]
  have hlft : (applyEvents evs (CircuitBreaker.init k tmo)).lastFailureTime =
      lastFailTime evs := by
    rw [h4]
    cases hlt : lastFailTime evs with
    | none => simp [CircuitBreaker.init]
    | some t => rfl
  have hiff : (applyEvents evs (CircuitBreaker.init k tmo)).state =
      CBState.opened ↔ k ≤ countFails evs := by
    rw [h5]
    simp [CircuitBreaker.init]
  refine ⟨hfc, hiff, hlft, ?_⟩
  intro now hop
  unfold CircuitBreaker.canExecute
  rw [hop]
  rw [hlft]
  have htmo : (applyEvents evs (CircuitBreaker.init k tmo)).timeout = tmo := by
    rw [h2]; rfl
  rw [htmo]
  split_ifs with hcond
  · simp only [Bool.true_eq_false, false_iff]
    omega
  · simp only [true_iff]
    omega

/-- Witness for `circuitBreaker_open_at_threshold` at threshold 2,
timeout 100, events fail@10, succeed, fail@20, probed at time 25. -/
theorem circuitBreaker_open_at_threshold_witness :
    (0 < 2 ∧
      (applyEvents [CBEvent.fail 10, CBEvent.succeed, CBEvent.fail 20]
        (CircuitBreaker.init 2 100)).failureCount =
        countFails [CBEvent.fail 10, CBEvent.succeed, CBEvent.fail 20]) ∧
    (((applyEvents [CBEvent.fail 10, CBEvent.succeed, CBEvent.fail 20]
        (CircuitBreaker.init 2 100)).canExecute 25).1 = false ↔
      25 - (lastFailTime
        [CBEvent.fail 10, CBEvent.succeed, CBEvent.fail 20]).getD 0 ≤ 100) := by
  refine ⟨⟨by decide, ?_⟩, ?_⟩
  · exact (circuitBreaker_open_at_threshold 2 100
      [CBEvent.fail 10, CBEvent.succeed, CBEvent.fail 20] (by decide)).1
  · exact (circuitBreaker_open_at_threshold 2 100
      [CBEvent.fail 10, CBEvent.succeed, CBEvent.fail 20]
      (by decide)).2.2.2 25 (by decide)

/-- Claim C4: An OPEN breaker whose timeout has strictly elapsed since
`lastFailureTime`: the next `canExecute` returns `true` and moves the state
to HALF_OPEN; then `failureThreshold` consecutive `recordSuccess` calls
close the circuit with both counters zero. -/
theorem circuitBreaker_recovery (cb : CircuitBreaker) (now : Int)
    (hop : cb.state = CBState.opened)
    (hel : cb.timeout < now - (cb.lastFailureTime.getD 0))
    (hk : 0 < cb.failureThreshold) :
    (cb.canExecute now).1 = true ∧
    (cb.canExecute now).2.state = CBState.halfOpen ∧
    (iterRecordSuccess cb.failureThreshold (cb.canExecute now).2).state =
      CBState.closed ∧
    (iterRecordSuccess cb.failureThreshold
      (cb.canExecute now).2).failureCount = 0 ∧
    (iterRecordSuccess cb.failureThreshold
      (cb.canExecute now).2).successCount = 0 := by
  have hcan : cb.canExecute now =
      (true, { cb with state := .halfOpen, successCount := 0 }) := by
    unfold CircuitBreaker.canExecute
    rw [hop]
    rw [if_pos (by omega)]
  rw [hcan]
  have hrec := iterRecordSuccess_closes cb.failureThreshold
    { cb with state := .halfOpen, successCount := 0 } rfl (by simp) hk
  exact ⟨rfl, rfl, hrec.1, hrec.2.1, hrec.2.2⟩

/-- Witness for `circuitBreaker_recovery`: threshold 2, timeout 10,
last failure at time 0, probed at time 11, then two successes. -/
theorem circuitBreaker_recovery_witness :
    (({ failureThreshold := 2, timeout := 10, state := .opened,
        failureCount := 2, lastFailureTime := some 0,
        successCount := 0 : CircuitBreaker }.canExecute 11).1 = true) ∧
    ((iterRecordSuccess 2
      ({ failureThreshold := 2, timeout := 10, state := .opened,
         failureCount := 2, lastFailureTime := some 0,
         successCount := 0 : CircuitBreaker }.canExecute 11).2).state =
      CBState.closed) := by
  have h := circuitBreaker_recovery
    { failureThreshold := 2, timeout := 10, state := .opened,
      failureCount := 2, lastFailureTime := some 0, successCount := 0 }
    11 rfl (by decide) (by decide)
  exact ⟨h.1, h.2.2.1⟩

/-! ## RetryManager (`src/core/RetryManager.js`)

`executeWithRetry` runs `fn` up to `maxRetries + 1` times; after a failed
attempt `i` (0-based) with `i < maxRetries` and a retryable error it sleeps
`calculateDelay(i)` and retries, otherwise it breaks, calls
`onFailure(lastError, maxRetries + 1)` and rethrows. The embedding threads
an arbitrary caller state `σ` through `fn` (covering callers whose `fn`
closes over mutable state, as `SQSClient` does) and logs the observable
effects — invocation count, the slept delays, `onRetry` and `onFailure`
calls — in a `RetryTrace`. Configuration values are naturals, so the
`Math.floor` in `calculateDelay` is the identity and is elided. -/

structure RetryConfig where
  maxRetries : Nat
  backoffMultiplier : Nat
  maxBackoffMs : Nat
  initialDelayMs : Nat
  deriving DecidableEq, Repr

/-- Formula `calculateDelay(attempt)` = `min(initialDelayMs * backoffMultiplier ^
attempt, maxBackoffMs)`. -/
def calculateDelay (cfg : RetryConfig) (attempt : Nat) : Nat :=
  min (cfg.initialDelayMs * cfg.backoffMultiplier ^ attempt) cfg.maxBackoffMs

/-- Observable effects of one `executeWithRetry` run: number of `fn`
invocations, the sequence of backoff sleeps, the `onRetry(error, attempt+1,
delay)` calls, and the terminal `onFailure(error, maxRetries+1)` call. -/
structure RetryTrace (E : Type) where
  invocations : Nat
  delays : List Nat
  onRetryEvents : List (E × Nat × Nat)
  onFailureEvent : Option (E × Nat)
  deriving DecidableEq, Repr

/-- Check `!shouldRetry || shouldRetry(error)`: an absent classifier retries
everything. -/
def shouldRetryCheck {E : Type} (shouldRetry : Option (E → Bool)) (e : E) :
    Bool :=
  match shouldRetry with
  | none => true
  | some p => p e

/-- The retry loop from `executeWithRetry`, starting at a given attempt
index. -/
def executeWithRetryGo {σ E A : Type} (cfg : RetryConfig)
    (fn : σ → Except E A × σ)
    (shouldRetry : Option (E → Bool)) (attempt : Nat) (s : σ)
    (tr : RetryTrace E) : Except E A × σ × RetryTrace E :=
  match fn s with
  | (r, s') =>
    let tr := { tr with invocations := tr.invocations + 1 }
    match r with
    | .ok a => (.ok a, s', tr)
    | .error e =>
        if h : attempt < cfg.maxRetries ∧ shouldRetryCheck shouldRetry e = true
        then
          let d := calculateDelay cfg attempt
          executeWithRetryGo cfg fn shouldRetry (attempt + 1) s'
            { tr with delays := tr.delays ++ [d],
                      onRetryEvents := tr.onRetryEvents ++ [(e, attempt + 1, d)] }
        else
          (.error e, s',
            { tr with onFailureEvent := some (e, cfg.maxRetries + 1) })
termination_by cfg.maxRetries - attempt
decreasing_by
  omega

/-- Function `executeWithRetry(fn, options)`: the loop started at attempt 0 with an
empty trace. -/
def executeWithRetry {σ E A : Type} (cfg : RetryConfig)
    (fn : σ → Except E A × σ)
    (shouldRetry : Option (E → Bool)) (s : σ) :
    Except E A × σ × RetryTrace E :=
  executeWithRetryGo cfg fn shouldRetry 0 s
    { invocations := 0, delays := [], onRetryEvents := [],
      onFailureEvent := none }

/-- One step of the retry loop: `fn` succeeds. -/
lemma executeWithRetryGo_ok {σ E A : Type} (cfg : RetryConfig)
    (fn : σ → Except E A × σ) (sr : Option (E → Bool)) (attempt : Nat)
    (s s' : σ) (tr : RetryTrace E) (a : A) (hfn : fn s = (.ok a, s')) :
    executeWithRetryGo cfg fn sr attempt s tr =
      (.ok a, s', { tr with invocations := tr.invocations + 1 }) := by
  rw [executeWithRetryGo.eq_def, hfn]

/-- One step of the retry loop: `fn` fails and the loop breaks (attempt
budget exhausted or error not retryable): `onFailure(lastError,
maxRetries + 1)` fires and the error is rethrown. -/
lemma executeWithRetryGo_break {σ E A : Type} (cfg : RetryConfig)
    (fn : σ → Except E A × σ) (sr : Option (E → Bool)) (attempt : Nat)
    (s s' : σ) (tr : RetryTrace E) (e : E) (hfn : fn s = (.error e, s'))
    (hstop : ¬(attempt < cfg.maxRetries ∧ shouldRetryCheck sr e = true)) :
    executeWithRetryGo cfg fn sr attempt s tr =
      (.error e, s',
        { tr with invocations := tr.invocations + 1,
                  onFailureEvent := some (e, cfg.maxRetries + 1) }) := by
  rw [executeWithRetryGo.eq_def, hfn]
  simp only [dif_neg hstop]

/-- One step of the retry loop: `fn` fails and the loop retries after the
calculated backoff. -/
lemma executeWithRetryGo_retry {σ E A : Type} (cfg : RetryConfig)
    (fn : σ → Except E A × σ) (sr : Option (E → Bool)) (attempt : Nat)
    (s s' : σ) (tr : RetryTrace E) (e : E) (hfn : fn s = (.error e, s'))
    (hgo : attempt < cfg.maxRetries ∧ shouldRetryCheck sr e = true) :
    executeWithRetryGo cfg fn sr attempt s tr =
      executeWithRetryGo cfg fn sr (attempt + 1) s'
        { tr with invocations := tr.invocations + 1,
                  delays := tr.delays ++ [calculateDelay cfg attempt],
                  onRetryEvents := tr.onRetryEvents ++
                    [(e, attempt + 1, calculateDelay cfg attempt)] } := by
  rw [executeWithRetryGo.eq_def, hfn]
  simp only [dif_pos hgo]

/-- The retry loop on a permanently failing operation (`errs i` = error of
the i-th invocation), with every error retryable, runs all remaining
attempts: the trace accumulates one backoff per non-final attempt. -/
lemma executeWithRetryGo_allFail {E A : Type} (cfg : RetryConfig)
    (errs : Nat → E) :
    ∀ (n attempt : Nat) (tr : RetryTrace E), attempt + n = cfg.maxRetries →
    executeWithRetryGo (σ := Nat) (A := A) cfg
        (fun k => (Except.error (errs k), k + 1)) (some (fun _ => true))
        attempt attempt tr =
      (Except.error (errs cfg.maxRetries), cfg.maxRetries + 1,
        { invocations := tr.invocations + (n + 1),
          delays := tr.delays ++ (List.range' attempt n).map (calculateDelay cfg),
          onRetryEvents := tr.onRetryEvents ++ (List.range' attempt n).map
            (fun i => (errs i, i + 1, calculateDelay cfg i)),
          onFailureEvent := some (errs cfg.maxRetries, cfg.maxRetries + 1) }) := by
  intro n
  induction n with
  | zero =>
      intro attempt tr h
      have hatt : attempt = cfg.maxRetries := by omega
      rw [executeWithRetryGo_break cfg _ _ attempt attempt (attempt + 1) tr
        (errs attempt) rfl (by simp; omega)]
      subst hatt
      simp
  | succ m ih =>
      intro attempt tr h
      rw [executeWithRetryGo_retry cfg _ _ attempt attempt (attempt + 1) tr
        (errs attempt) rfl ⟨by omega, by simp [shouldRetryCheck]⟩]
      rw [ih (attempt + 1) _ (by omega)]
      have hinv : tr.invocations + 1 + (m + 1) = tr.invocations + (m + 1 + 1) := by
        omega
      simp [List.range'_succ, List.append_assoc, hinv]

/-- Claim C5, amended: On an operation that throws on every invocation with
`shouldRetry` always true, `executeWithRetry` invokes the operation exactly
`maxRetries + 1` times, re-raises the last error, and performs exactly
`maxRetries` inter-attempt delays, the i-th (0-based, `i < maxRetries`)
equal to `min(initialDelayMs * backoffMultiplier ^ i, maxBackoffMs)`. -/
theorem retryExecutor_permanent_failure {E A : Type} (cfg : RetryConfig)
    (errs : Nat → E) :
    executeWithRetry (σ := Nat) (A := A) cfg
        (fun k => (Except.error (errs k), k + 1)) (some (fun _ => true)) 0 =
      (Except.error (errs cfg.maxRetries), cfg.maxRetries + 1,
        { invocations := cfg.maxRetries + 1,
          delays := (List.range cfg.maxRetries).map (calculateDelay cfg),
          onRetryEvents := (List.range cfg.maxRetries).map
            (fun i => (errs i, i + 1, calculateDelay cfg i)),
          onFailureEvent :=
            some (errs cfg.maxRetries, cfg.maxRetries + 1) }) ∧
    ∀ i : Nat, calculateDelay cfg i =
      min (cfg.initialDelayMs * cfg.backoffMultiplier ^ i) cfg.maxBackoffMs := by
  constructor
  · have h := executeWithRetryGo_allFail (A := A) cfg errs cfg.maxRetries 0
      { invocations := 0, delays := [], onRetryEvents := [],
        onFailureEvent := none } (by omega)
    unfold executeWithRetry
    rw [h]
    simp [List.range_eq_range']
  · intro i
    rfl

/-- Claim C5, counterexample: With `maxRetries = 3`, `initialDelayMs = 100`,
`backoffMultiplier = 2`, `maxBackoffMs = 1000` and an always-throwing
operation, the observed inter-attempt delays are `100, 200, 400` — three
delays, not the four (`100, 200, 400, 800`) the claim asserts. -/
theorem retryExecutor_delays_counterexample :
    (executeWithRetry (σ := Nat) (A := Unit)
        { maxRetries := 3, backoffMultiplier := 2, maxBackoffMs := 1000,
          initialDelayMs := 100 }
        (fun k => (Except.error (toString k), k + 1)) (some (fun _ => true))
        0).2.2.delays = [100, 200, 400] ∧
    (executeWithRetry (σ := Nat) (A := Unit)
        { maxRetries := 3, backoffMultiplier := 2, maxBackoffMs := 1000,
          initialDelayMs := 100 }
        (fun k => (Except.error (toString k), k + 1)) (some (fun _ => true))
        0).2.2.delays ≠ [100, 200, 400, 800] := by
  have h := executeWithRetryGo_allFail (A := Unit)
    { maxRetries := 3, backoffMultiplier := 2, maxBackoffMs := 1000,
      initialDelayMs := 100 } toString 3 0
    { invocations := 0, delays := [], onRetryEvents := [],
      onFailureEvent := none } rfl
  unfold executeWithRetry
  rw [h]
  constructor
  · decide
  · decide

/-- Claim C10: If the first invocation throws an error the classifier rejects,
`executeWithRetry` invokes the operation exactly once, performs no backoff
sleep and no `onRetry` call, invokes `onFailure` with that error and with
second argument `maxRetries + 1` (the configured maximum, not the single
attempt actually made), and re-raises the error. -/
theorem retryExecutor_nonretryable {σ E A : Type} (cfg : RetryConfig)
    (fn : σ → Except E A × σ) (p : E → Bool) (s₀ s₁ : σ) (e : E)
    (hfn : fn s₀ = (.error e, s₁)) (hp : p e = false) :
    executeWithRetry cfg fn (some p) s₀ =
      (.error e, s₁,
        { invocations := 1, delays := [], onRetryEvents := [],
          onFailureEvent := some (e, cfg.maxRetries + 1) }) := by
  unfold executeWithRetry
  rw [executeWithRetryGo_break cfg fn (some p) 0 s₀ s₁ _ e hfn
    (by
      intro hco
      simp [shouldRetryCheck, hp] at hco)]

/-- Witness for `retryExecutor_nonretryable`: a single non-retryable
failure with `maxRetries = 3`. -/
theorem retryExecutor_nonretryable_witness :
    ((fun n : Nat => ((Except.error "fatal" : Except String Unit), n + 1)) 0 =
        (Except.error "fatal", 1) ∧
      (fun _ : String => false) "fatal" = false) ∧
    executeWithRetry
        { maxRetries := 3, backoffMultiplier := 2, maxBackoffMs := 30000,
          initialDelayMs := 1000 }
        (fun n : Nat => ((Except.error "fatal" : Except String Unit), n + 1))
        (some (fun _ => false)) 0 =
      (Except.error "fatal", 1,
        { invocations := 1, delays := [], onRetryEvents := [],
          onFailureEvent := some ("fatal", 4) }) :=
  ⟨⟨rfl, rfl⟩,
    retryExecutor_nonretryable
      { maxRetries := 3, backoffMultiplier := 2, maxBackoffMs := 30000,
        initialDelayMs := 1000 }
      (fun n : Nat => ((Except.error "fatal" : Except String Unit), n + 1))
      (fun _ => false) 0 1 "fatal" rfl rfl⟩

/-! ## SQSClient (`src/core/SQSClient.js`)

`executeCommand` first consults the circuit breaker; if `canExecute()` is
false it throws `Error('Circuit breaker is open - operation not allowed')`
without touching anything else. Otherwise it runs `executeFn` (the AWS
`send` wrapped so that success calls `recordSuccess()` and failure calls
`recordFailure()` before rethrowing) through
`retryManager.executeWithRetry` with the SQS `shouldRetry` classifier.
The embedding abstracts `awsClient.send` as a function from the invocation
index to a result, and counts `send`/`recordSuccess`/`recordFailure` calls
in the threaded state. -/

structure SqsError where
  name : String
  message : String
  deriving DecidableEq, Repr

/-- The `shouldRetry` classifier passed by `executeCommand`: retry on
throttling, service-unavailable, internal, networking and timeout errors. -/
def sqsShouldRetry (e : SqsError) : Bool :=
  e.name == "ThrottlingException" ||
  e.name == "ServiceUnavailableException" ||
  e.name == "InternalServerError" ||
  e.name == "NetworkingError" ||
  e.name == "TimeoutError"

/-- The error thrown when the breaker denies execution. -/
def circuitOpenError : SqsError :=
  { name := "Error", message := "Circuit breaker is open - operation not allowed" }

/-- Client-side mutable state threaded through `executeFn`: the breaker and
call counters for the external `send` and the breaker record methods. -/
structure ClientState where
  cb : CircuitBreaker
  sendCount : Nat
  recordSuccessCount : Nat
  recordFailureCount : Nat
  deriving DecidableEq, Repr

/-- The `executeFn` closure built by `executeCommand`: sends the command,
records success/failure on the breaker, rethrows errors. -/
def executeFn {A : Type} (now : Int) (send : Nat → Except SqsError A)
    (st : ClientState) : Except SqsError A × ClientState :=
  match send st.sendCount with
  | .ok r =>
      (.ok r, { st with sendCount := st.sendCount + 1,
                        cb := st.cb.recordSuccess,
                        recordSuccessCount := st.recordSuccessCount + 1 })
  | .error e =>
      (.error e, { st with sendCount := st.sendCount + 1,
                           cb := st.cb.recordFailure now,
                           recordFailureCount := st.recordFailureCount + 1 })

/-- Outcome of `executeCommand`: the result, the final client state, and
the retry executor's trace (`none` when the breaker denied execution before
the retry executor was ever invoked). -/
structure ExecOutcome (A : Type) where
  result : Except SqsError A
  finalState : ClientState
  retryTrace : Option (RetryTrace SqsError)

/-- Method `executeCommand(command)`: breaker gate, then retry-wrapped `send`. -/
def executeCommand {A : Type} (now : Int) (retryCfg : RetryConfig)
    (cb : CircuitBreaker) (send : Nat → Except SqsError A) : ExecOutcome A :=
  let gate := cb.canExecute now
  if !gate.1 then
    { result := .error circuitOpenError,
      finalState := { cb := gate.2, sendCount := 0, recordSuccessCount := 0,
                      recordFailureCount := 0 },
      retryTrace := none }
  else
    let run := executeWithRetry retryCfg (executeFn now send)
      (some sqsShouldRetry)
      { cb := gate.2, sendCount := 0, recordSuccessCount := 0,
        recordFailureCount := 0 }
    { result := run.1, finalState := run.2.1, retryTrace := some run.2.2 }

/-- A denying `canExecute` leaves the breaker unchanged. -/
lemma canExecute_false_state (cb : CircuitBreaker) (now : Int)
    (h : (cb.canExecute now).1 = false) : (cb.canExecute now).2 = cb := by
  unfold CircuitBreaker.canExecute at *
  cases hs : cb.state with
  | closed => simp [hs] at h
  | opened =>
      by_cases hc : now - cb.lastFailureTime.getD 0 > cb.timeout
      · simp [hs, hc] at h
      · simp [hc]
  | halfOpen => simp [hs] at h

/-- Claim C8: When the circuit breaker denies execution, `executeCommand`
fails immediately with the circuit-open error: the underlying send is never
invoked, the retry executor is never entered, and neither `recordSuccess`
nor `recordFailure` is called (the breaker is unchanged). -/
theorem sqsClient_circuit_open_blocks {A : Type} (now : Int)
    (retryCfg : RetryConfig) (cb : CircuitBreaker)
    (send : Nat → Except SqsError A)
    (h : (cb.canExecute now).1 = false) :
    executeCommand now retryCfg cb send =
      { result := .error circuitOpenError,
        finalState := { cb := cb, sendCount := 0, recordSuccessCount := 0,
                        recordFailureCount := 0 },
        retryTrace := none } := by
  have hpair : cb.canExecute now = (false, cb) := by
    have heta : cb.canExecute now =
        ((cb.canExecute now).1, (cb.canExecute now).2) := rfl
    rw [heta, h, canExecute_false_state cb now h]
  unfold executeCommand
  rw [hpair]
  simp

/-- Witness for `sqsClient_circuit_open_blocks`: an OPEN breaker probed
within its timeout window. -/
theorem sqsClient_circuit_open_blocks_witness :
    (({ failureThreshold := 5, timeout := 100, state := .opened,
        failureCount := 5, lastFailureTime := some 0,
        successCount := 0 : CircuitBreaker }.canExecute 5).1 = false) ∧
    executeCommand 5
        { maxRetries := 3, backoffMultiplier := 2, maxBackoffMs := 30000,
          initialDelayMs := 1000 }
        { failureThreshold := 5, timeout := 100, state := .opened,
          failureCount := 5, lastFailureTime := some 0, successCount := 0 }
        (fun _ => (.ok 0 : Except SqsError Nat)) =
      { result := .error circuitOpenError,
        finalState := { cb := { failureThreshold := 5, timeout := 100,
                                state := .opened, failureCount := 5,
                                lastFailureTime := some 0, successCount := 0 },
                        sendCount := 0, recordSuccessCount := 0,
                        recordFailureCount := 0 },
        retryTrace := none } :=
  ⟨by decide,
    sqsClient_circuit_open_blocks 5
      { maxRetries := 3, backoffMultiplier := 2, maxBackoffMs := 30000,
        initialDelayMs := 1000 }
      { failureThreshold := 5, timeout := 100, state := .opened,
        failureCount := 5, lastFailureTime := some 0, successCount := 0 }
      (fun _ => (.ok 0 : Except SqsError Nat)) (by decide)⟩

/-! ## ProcessingEngine (`src/consumers/ProcessingEngine.js`)

A message carries `MessageId`, `ReceiptHandle` and `Body`. The handler
argument below stands for the whole body of `_processSingleMessage`'s try
block — `JSON.parse(message.Body)` followed by
`messageHandler(messageBody, context)` — returning `.error msg` when that
code throws. `_processSingleMessage` catches every such throw and resolves
with `{success: false, messageId, error}`; it never rejects. Consequently
the catch handler in `_processSequential` is unreachable and the promises
gathered by `_processParallel`'s `Promise.allSettled` are always
fulfilled (their `.catch` and the `rejected` branch of the `forEach` are
dead code); the embedding reflects this. The wall-clock `processingTime`
and error-entry `timestamp` fields are elided. -/

structure Message where
  MessageId : String
  ReceiptHandle : String
  Body : String
  deriving DecidableEq, Repr

/-- Result of `_processSingleMessage` (always fulfilled). -/
structure SingleResult where
  success : Bool
  messageId : String
  error : Option String
  deriving DecidableEq, Repr

/-- An entry of `results.errors`. -/
structure ErrorEntry where
  messageId : String
  error : String
  deriving DecidableEq, Repr

/-- The `results` accumulator of `processMessages`. -/
structure BatchResults where
  total : Nat
  successful : Nat
  failed : Nat
  errors : List ErrorEntry
  deriving DecidableEq, Repr

/-- Method `_processSingleMessage`: runs the parse-and-handle block, converting a
throw into `success: false` with the error message. -/
def processSingleMessage (message : Message)
    (handler : Message → Except String Unit) : SingleResult :=
  match handler message with
  | .ok _ =>
      { success := true, messageId := message.MessageId, error := none }
  | .error e =>
      { success := false, messageId := message.MessageId, error := some e }

/-- Method `_processSequential`: since `_processSingleMessage` always resolves,
the `try` body completes for every message and `results.successful++` runs
unconditionally; the catch (`results.failed++` / `errors.push`) is dead. -/
def processSequential (messages : List Message)
    (handler : Message → Except String Unit) (results : BatchResults) :
    BatchResults :=
  match messages with
  | [] => results
  | message :: rest =>
      let _ := processSingleMessage message handler
      processSequential rest handler
        { results with successful := results.successful + 1 }

/-- Helper `_chunkArray(array, size)`. A zero size never occurs (callers pass
positive sizes); it is mapped to `[]` where JS would not terminate. -/
def chunkArray {α : Type} : List α → Nat → List (List α)
  | [], _ => []
  | _ :: _, 0 => []
  | a :: rest, size + 1 =>
      ((a :: rest).take (size + 1)) ::
        chunkArray ((a :: rest).drop (size + 1)) (size + 1)
termination_by arr _ => arr.length
decreasing_by
  simp [List.length_drop]
  omega

/-- Method `_processParallel`: slices into batches of `batchSize`, each batch into
chunks of `min(batch.length, maxConcurrency)`; every settled promise is
fulfilled with the `_processSingleMessage` result, counted by its
`success` flag. -/
def processParallel (batchSize maxConcurrency : Nat)
    (messages : List Message) (handler : Message → Except String Unit)
    (results : BatchResults) : BatchResults :=
  (chunkArray messages batchSize).foldl (fun res batch =>
    (chunkArray batch (min batch.length maxConcurrency)).foldl
      (fun res chunk =>
        chunk.foldl (fun res message =>
          let r := processSingleMessage message handler
          if r.success then
            { res with successful := res.successful + 1 }
          else
            { res with failed := res.failed + 1,
                       errors := res.errors ++
                         [{ messageId := r.messageId,
                            error := r.error.getD "" }] })
        res)
      res)
    results

/-- Method `processMessages(messages, handler)`: initialises the results record
and dispatches on the configured mode string. -/
def processMessages (mode : String) (batchSize maxConcurrency : Nat)
    (messages : List Message) (handler : Message → Except String Unit) :
    BatchResults :=
  let results : BatchResults :=
    { total := messages.length, successful := 0, failed := 0, errors := [] }
  if mode == "parallel" then
    processParallel batchSize maxConcurrency messages handler results
  else
    processSequential messages handler results

/-! ## MessageConsumer (`src/consumers/MessageConsumer.js`)

`_deleteProcessedMessages(messages, results)` filters the received batch
with the predicate `results.successful > 0` — a batch-level test that
ignores the individual message — and issues a delete for every message
that passes; the embedding returns the list of receipt handles deleted.
`_consumeLoop` is modelled per iteration by the outcome the awaited steps
produce: a loop-level fault (an exception escaping receive/process/delete),
an empty receive, or a completed batch; `iterSleeps` records the sleeps the
iteration performs and `consumeLoop` folds iterations while the running
flag (never written by the loop body itself) is set. -/

/-- Method `_deleteProcessedMessages`: receipt handles the consumer deletes. -/
def deleteProcessedMessages (messages : List Message)
    (results : BatchResults) : List String :=
  (messages.filter (fun _ => decide (results.successful > 0))).map
    (fun message => message.ReceiptHandle)

structure ConsumerOptions where
  pollingInterval : Nat
  throttleDelayMs : Nat
  deriving DecidableEq, Repr

/-- Outcome of one iteration of `_consumeLoop`: a loop-level fault (an
exception escaped the receive/process/delete steps), an empty receive, or
a processed batch. -/
inductive IterOutcome where
  | faulted
  | empty
  | completed (results : BatchResults)
  deriving DecidableEq, Repr

/-- Sleeps performed by one loop iteration: `pollingInterval` after an
empty receive, the throttle delay (if positive) after a processed batch,
and `pollingInterval * 2` in the catch handler after a loop-level fault. -/
def iterSleeps (opts : ConsumerOptions) : IterOutcome → List Nat
  | .faulted => [opts.pollingInterval * 2]
  | .empty => [opts.pollingInterval]
  | .completed _ =>
      if opts.throttleDelayMs > 0 then [opts.throttleDelayMs] else []

/-- Method `_consumeLoop` over a finite schedule of iteration outcomes: while the
running flag is set the body runs every iteration (no outcome, faults
included, makes it exit) and yields that iteration's sleeps. -/
def consumeLoop (opts : ConsumerOptions) (running : Bool) :
    List IterOutcome → List (List Nat)
  | [] => []
  | o :: rest =>
      if running then iterSleeps opts o :: consumeLoop opts running rest
      else []

/-- Claim C1, code evaluated at the failing input: A 2-message parallel
batch whose handler succeeds on `m1` and throws on `m2`: the results
correctly record one success and one failure, yet
`_deleteProcessedMessages` deletes BOTH receipt handles — its filter
predicate `results.successful > 0` is batch-level, so the failed `m2` is
acknowledged too, contradicting the claim that a message whose handler
threw is never deleted. -/
theorem consumer_deletes_failed_message :
    processMessages "parallel" 5 10
        [{ MessageId := "m1", ReceiptHandle := "r1", Body := "good" },
         { MessageId := "m2", ReceiptHandle := "r2", Body := "bad" }]
        (fun m => if m.Body == "bad" then .error "boom" else .ok ()) =
      { total := 2, successful := 1, failed := 1,
        errors := [{ messageId := "m2", error := "boom" }] } ∧
    deleteProcessedMessages
        [{ MessageId := "m1", ReceiptHandle := "r1", Body := "good" },
         { MessageId := "m2", ReceiptHandle := "r2", Body := "bad" }]
        (processMessages "parallel" 5 10
          [{ MessageId := "m1", ReceiptHandle := "r1", Body := "good" },
           { MessageId := "m2", ReceiptHandle := "r2", Body := "bad" }]
          (fun m => if m.Body == "bad" then .error "boom" else .ok ())) =
      ["r1", "r2"] := by
  have h : processMessages "parallel" 5 10
      [{ MessageId := "m1", ReceiptHandle := "r1", Body := "good" },
       { MessageId := "m2", ReceiptHandle := "r2", Body := "bad" }]
      (fun m => if m.Body == "bad" then .error "boom" else .ok ()) =
      { total := 2, successful := 1, failed := 1,
        errors := [{ messageId := "m2", error := "boom" }] } := by
    simp [processMessages, processParallel, chunkArray, processSingleMessage]
  refine ⟨h, ?_⟩
  rw [h]
  rfl

/-- Claim C2, code evaluated at the failing input: In the default
sequential mode a 1-message batch whose handler throws is counted as
successful — `successful = 1`, `failed = 0`, `errors = []` — because
`_processSingleMessage` swallows the throw and `_processSequential`'s
catch never fires; the same batch in parallel mode is counted correctly,
so sequential mode contradicts the claimed partial-failure bookkeeping. -/
theorem processingEngine_sequential_miscounts :
    processMessages "sequential" 5 10
        [{ MessageId := "m1", ReceiptHandle := "r1", Body := "bad" }]
        (fun _ => .error "boom") =
      { total := 1, successful := 1, failed := 0, errors := [] } ∧
    processMessages "parallel" 5 10
        [{ MessageId := "m1", ReceiptHandle := "r1", Body := "bad" }]
        (fun _ => .error "boom") =
      { total := 1, successful := 0, failed := 1,
        errors := [{ messageId := "m1", error := "boom" }] } := by
  refine ⟨rfl, ?_⟩
  simp [processMessages, processParallel, chunkArray, processSingleMessage]

/-- Claim C9: With the running flag set, the consumer loop executes every
scheduled iteration — a loop-level fault never terminates it — and an
iteration whose awaited steps fault sleeps exactly
`pollingInterval * 2` before the next iteration. -/
theorem consumerLoop_fault_backoff (opts : ConsumerOptions)
    (outcomes : List IterOutcome) :
    consumeLoop opts true outcomes = outcomes.map (iterSleeps opts) ∧
    iterSleeps opts .faulted = [opts.pollingInterval * 2] := by
  constructor
  · induction outcomes with
    | nil => rfl
    | cons o rest ih => simp [consumeLoop, ih]
  · rfl

/-! ## DeduplicationManager: cache (`src/utils/DeduplicationManager.js`)

`isDuplicate(deduplicationId)` sweeps the cache (deleting every entry with
`now - timestamp > cacheExpiry`), answers membership, and inserts the key
with the current time when absent. The JS `Map` is modelled as an
association list without duplicate keys; `Map.set` overwrites an existing
key, `Map.has` is membership; the in-place delete loop over the map is the
`sweep` filter. -/

structure DedupCache where
  entries : List (String × Int)
  cacheExpiry : Int
  deriving DecidableEq, Repr

/-- Operation `Map.has(k)` on the association list. -/
def hasKey (k : String) (es : List (String × Int)) : Bool :=
  es.any (fun e => e.1 == k)

/-- Operation `Map.set(k, v)`: overwrite if present, else append. -/
def setKey (k : String) (v : Int) (es : List (String × Int)) :
    List (String × Int) :=
  if hasKey k es then
    es.map (fun e => if e.1 == k then (k, v) else e)
  else
    es ++ [(k, v)]

/-- The eviction loop: delete every entry with `now - timestamp >
cacheExpiry`. -/
def sweep (now : Int) (c : DedupCache) : List (String × Int) :=
  c.entries.filter (fun e => !(decide (now - e.2 > c.cacheExpiry)))

/-- Method `isDuplicate(deduplicationId)` at wall-clock time `now`: sweep, then
membership test, inserting on a miss. -/
def isDuplicate (k : String) (now : Int) (c : DedupCache) :
    Bool × DedupCache :=
  if hasKey k (sweep now c) then
    (true, { c with entries := sweep now c })
  else
    (false, { c with entries := setKey k now (sweep now c) })

/-- Filtering cannot introduce a key. -/
lemma hasKey_filter_false (k : String) (p : String × Int → Bool)
    (es : List (String × Int)) (h : hasKey k es = false) :
    hasKey k (es.filter p) = false := by
  rw [hasKey, List.any_eq_false] at h ⊢
  intro x hx
  exact h x (List.mem_of_mem_filter hx)

/-- The membership answer of the second sweep: the freshly inserted entry
`(k, t1)` survives a sweep at `t2` exactly when `t2 - t1 ≤ cacheExpiry`. -/
lemma hasKey_sweep_after_insert (c : DedupCache) (k : String) (t1 t2 : Int)
    (h1 : hasKey k (sweep t1 c) = false) :
    hasKey k (sweep t2 { c with entries := sweep t1 c ++ [(k, t1)] }) =
      !(decide (t2 - t1 > c.cacheExpiry)) := by
  unfold sweep at *
  rw [hasKey] at h1 ⊢
  simp only [List.filter_append, List.any_append]
  rw [List.any_eq_false] at h1
  have hleft : (List.filter
      (fun e => !(decide (t2 - e.2 > c.cacheExpiry)))
      (List.filter (fun e => !(decide (t1 - e.2 > c.cacheExpiry)))
        c.entries)).any (fun e => e.1 == k) = false := by
    rw [List.any_eq_false]
    intro x hx
    exact h1 x (List.mem_of_mem_filter hx)
  rw [hleft]
  cases hd : decide (t2 - t1 > c.cacheExpiry) <;>
    simp [List.filter_cons, hd]

/-- Claim C6: For a key not in the cache: the first `isDuplicate` call
returns false (and inserts the key), a repeat call within `cacheExpiry`
of the insertion returns true, and a repeat call more than `cacheExpiry`
after the insertion returns false (the sweep evicts the entry first). -/
theorem dedupCache_first_and_repeat (c : DedupCache) (k : String)
    (t1 t2 : Int) (hfresh : hasKey k c.entries = false) :
    (isDuplicate k t1 c).1 = false ∧
    (t2 - t1 ≤ c.cacheExpiry →
      (isDuplicate k t2 (isDuplicate k t1 c).2).1 = true) ∧
    (t2 - t1 > c.cacheExpiry →
      (isDuplicate k t2 (isDuplicate k t1 c).2).1 = false) := by
  have h1 : hasKey k (sweep t1 c) = false :=
    hasKey_filter_false k _ c.entries hfresh
  have hfirst : isDuplicate k t1 c =
      (false, { c with entries := sweep t1 c ++ [(k, t1)] }) := by
    unfold isDuplicate
    rw [if_neg (by simp [h1])]
    unfold setKey
    rw [if_neg (by simp [h1])]
  rw [hfirst]
  have hsw := hasKey_sweep_after_insert c k t1 t2 h1
  refine ⟨rfl, ?_, ?_⟩
  · intro hle
    have hd : decide (t2 - t1 > c.cacheExpiry) = false := by
      simp
      omega
    rw [hd] at hsw
    unfold isDuplicate
    rw [if_pos (by rw [hsw]; rfl)]
  · intro hgt
    have hd : decide (t2 - t1 > c.cacheExpiry) = true := by
      simp
      omega
    rw [hd] at hsw
    unfold isDuplicate
    rw [if_neg (by rw [hsw]; simp)]

/-- Witness for `dedupCache_first_and_repeat`: empty cache with the
default 300000 ms expiry, first call at t=0, repeats at t=5 and
t=300001. -/
theorem dedupCache_first_and_repeat_witness :
    (hasKey "a" (⟨[], 300000⟩ : DedupCache).entries = false) ∧
    (isDuplicate "a" 0 ⟨[], 300000⟩).1 = false ∧
    (isDuplicate "a" 5 (isDuplicate "a" 0 ⟨[], 300000⟩).2).1 = true ∧
    (isDuplicate "a" 300001 (isDuplicate "a" 0 ⟨[], 300000⟩).2).1 = false := by
  refine ⟨by decide, (dedupCache_first_and_repeat ⟨[], 300000⟩ "a" 0 5
    (by decide)).1, ?_, ?_⟩
  · exact (dedupCache_first_and_repeat ⟨[], 300000⟩ "a" 0 5 (by decide)).2.1
      (by decide)
  · exact (dedupCache_first_and_repeat ⟨[], 300000⟩ "a" 0 300001
      (by decide)).2.2 (by decide)

/-! ## DeduplicationManager: content-based id (`_generateContentBasedId`)

`_hashObject(obj)` computes `JSON.stringify(obj, Object.keys(obj).sort())`
and hashes the resulting string. Per the JSON.stringify specification, an
*array* second argument is a property list: at EVERY nesting depth only
properties whose names appear in the list are serialized, in the list's
order. The model serializes a small JS value universe; `jundef` is
JavaScript `undefined`, whose properties are omitted from objects. Since
the claims concern equality of the *hash inputs*, the SHA-256 step itself
is not modelled: `generateContentBasedIdInput` is the exact string
`_generateContentBasedId` feeds to `_hashString`. String escaping inside
JSON string literals is not modelled (no input used here needs it). -/

inductive JsValue where
  | jundef
  | jnull
  | jstr (s : String)
  | jnum (n : Int)
  | jobj (fields : List (String × JsValue))

mutual

/-- Model of `JSON.stringify(value, keys)` with a property-list replacer: `none` is
JS `undefined` (how `JSON.stringify` treats `undefined` values). -/
def jsonStringify (keys : List String) : JsValue → Option String
  | .jundef => none
  | .jnull => some "null"
  | .jstr s => some ("\"" ++ s ++ "\"")
  | .jnum n => some (toString n)
  | .jobj fields =>
      some ("\x7b" ++ String.intercalate ","
        (keys.filterMap (fun key =>
          match (serFields keys fields).lookup key with
          | some (some v) => some ("\"" ++ key ++ "\":" ++ v)
          | _ => none)) ++ "\x7d")

/-- Serialize each field's value (property-list filtering happens at the
enclosing object via the key iteration). -/
def serFields (keys : List String) : List (String × JsValue) →
    List (String × Option String)
  | [] => []
  | (k, v) :: rest => (k, jsonStringify keys v) :: serFields keys rest

end

/-- Accessor `Object.keys(obj)`. -/
def objKeys (fields : List (String × JsValue)) : List String :=
  fields.map (fun f => f.1)

/-- Insert into a sorted list (lexicographic). -/
def insertSorted (s : String) : List String → List String
  | [] => [s]
  | x :: rest => if s ≤ x then s :: x :: rest else x :: insertSorted s rest

/-- Model of `Array.prototype.sort()` with the default lexicographic comparator. -/
def sortStrings : List String → List String
  | [] => []
  | x :: rest => insertSorted x (sortStrings rest)

/-- The string `_hashObject(obj)` feeds to `_hashString`:
`JSON.stringify(obj, Object.keys(obj).sort())`. -/
def hashObjectInput (fields : List (String × JsValue)) : String :=
  (jsonStringify (sortStrings (objKeys fields)) (.jobj fields)).getD
    "undefined"

/-- The hash input built by `_generateContentBasedId`: the object
`\x7b body, groupId, timestamp \x7d` serialized through `_hashObject`. -/
def generateContentBasedIdInput (messageBody : JsValue)
    (messageGroupId : Option String) (now : Int) : String :=
  hashObjectInput
    [("body", messageBody),
     ("groupId", match messageGroupId with
                 | some g => JsValue.jstr g
                 | none => JsValue.jundef),
     ("timestamp", JsValue.jnum now)]

/-- Claim C7, code evaluated at the failing input: Two different message
bodies — objects whose own key `foo` is not in the property list
`["body","groupId","timestamp"]` — produce the SAME hash input at the same
group id and timestamp: the replacer array filters nested objects too, so
the body serializes as the empty object and its content never reaches the
hash, contradicting the claim that the key depends on the full body
content. -/
theorem dedupContentId_ignores_body_content :
    generateContentBasedIdInput (.jobj [("foo", .jnum 1)]) (some "g") 1000 =
      generateContentBasedIdInput (.jobj [("foo", .jnum 2)]) (some "g") 1000 ∧
    generateContentBasedIdInput (.jobj [("foo", .jnum 1)]) (some "g") 1000 =
      "\x7b\"body\":\x7b\x7d,\"groupId\":\"g\",\"timestamp\":1000\x7d" := by
  constructor
  · simp +decide [generateContentBasedIdInput, hashObjectInput, jsonStringify,
      serFields, objKeys, sortStrings, insertSorted]
  · simp +decide [generateContentBasedIdInput, hashObjectInput, jsonStringify,
      serFields, objKeys, sortStrings, insertSorted]
